import Mathlib

/-!
Verification of the stock_analysis search-and-scoring core against its design
document.  The definitions below are a shallow embedding of the Python sources:

* `src/strategies/metrics.py` (metric functions, the metric registry, the
  objective catalog),
* `src/strategies/base_strategy.py` (`BaseStrategy.calculate_metrics`),
* `src/strategies/optimization.py` (`StrategyOptimizer`,
  `MultiObjectiveOptimizer`),
* `src/experimental_algorithms/genetic_strategy.py` (`GeneticStrategy`).

Modeling conventions: pandas/NumPy floats are modeled exactly where the claims
exercise them — finite values as rationals, the infinities and NaN as
dedicated constructors, and the single irrational shape produced by the
annualization factor (a rational multiple of a square root) as a symbolic
constructor.  A NaN cell of a pandas column is `none`.  Exceptions are modeled
with `Except`; randomness is passed in explicitly as the outcome drawn by each
call site (`random.sample` draws index lists, `random.random() < p` draws a
Boolean), so that a theorem can quantify over exactly the draws the library
call can produce.
-/

deriving instance DecidableEq for Except

namespace StockAnalysis

/-- Model of a Python float appearing in the metric pipeline.  `val q` is a
finite value, `posInf`/`negInf` the infinities, `nan` the IEEE NaN, and
`sqrtMul q r` the exact value `q * sqrt r` produced by the sharpe and sortino
calculations (`sqrt(252) * mean / std = mean * sqrt (252 / variance)`). -/
inductive Fl where
  | val (q : ℚ)
  | posInf
  | negInf
  | nan
  | sqrtMul (q r : ℚ)
deriving DecidableEq

/-- Model of the Python exceptions raised by the embedded code.  The
`ValueError` raised at base_strategy.py line 51 interpolates the metric name
and the list of missing column names into its message; it is kept structured
here as `missingColumnsError` so that theorems can speak about its payload. -/
inductive PyErr where
  | valueError (msg : String)
  | missingColumnsError (metric : String) (missing : List String)
  | attributeError (attr : String)
  | keyError (key : String)
  | indexError
  | notImplementedError
  | exception (msg : String)
deriving DecidableEq

/-- A pandas column: a list of cells, `none` modeling NaN. -/
abbrev Col := List (Option ℚ)

/-- A pandas DataFrame, modeled as an association list from column name to
column.  Only the column names and cell values are relevant to the claims. -/
abbrev Frame := List (String × Col)

/-- Membership test `c in df.columns`. -/
def hasCol (df : Frame) (c : String) : Bool :=
  df.any (fun p => p.1 == c)

/-- Column lookup returning `none` when the column is absent. -/
def colOpt (df : Frame) (c : String) : Option Col :=
  (df.find? (fun p => p.1 == c)).map Prod.snd

/-- Column access `df[c]`: raises `KeyError` when the column is absent. -/
def getCol (df : Frame) (c : String) : Except PyErr Col :=
  match colOpt df c with
  | none => .error (.keyError c)
  | some l => .ok l

/-- Cells of a column that are not NaN (the pandas skipna view). -/
def dropNa (col : Col) : List ℚ :=
  col.filterMap id

/-- Arithmetic mean of a list of rationals (junk value 0 on the empty list;
every use below is guarded so the empty case never carries meaning). -/
def listMean (l : List ℚ) : ℚ :=
  l.sum / (l.length : ℚ)

/-- Sample variance with one delta degree of freedom, as pandas `std`
squares to (every use below is guarded to lists of length at least 2). -/
def sampleVar (l : List ℚ) : ℚ :=
  (l.map (fun x => (x - listMean l) ^ 2)).sum / ((l.length : ℚ) - 1)

/-- Embedding of `calculate_sharpe_ratio` (metrics.py lines 97-102):
`returns = df[returns]`; fewer than 2 rows return 0.0; otherwise
`sqrt(252) * returns.mean() / returns.std()`.  The mean and std skip NaN
cells; fewer than 2 non-NaN cells make the std NaN and hence the result NaN;
a zero std makes the float quotient an infinity whose sign is the sign of the
mean (NaN when the mean is 0). -/
def calculate_sharpe_ratio (df : Frame) : Except PyErr Fl := do
  let returns ← getCol df "returns"
  if returns.length < 2 then return Fl.val 0
  let xs := dropNa returns
  if xs.length < 2 then return Fl.nan
  let μ := listMean xs
  let v := sampleVar xs
  if v = 0 then
    if 0 < μ then return Fl.posInf
    else if μ < 0 then return Fl.negInf
    else return Fl.nan
  else return Fl.sqrtMul μ (252 / v)

/-- Embedding of `calculate_sortino_ratio` (metrics.py lines 104-112):
fewer than 2 rows return 0.0; an empty downside selection returns inf;
otherwise `sqrt(252) * returns.mean() / downside_returns.std()`.  A single
downside cell makes the downside std NaN and hence the result NaN; a zero
downside std makes the quotient a signed infinity as in the sharpe case. -/
def calculate_sortino_ratio (df : Frame) : Except PyErr Fl := do
  let returns ← getCol df "returns"
  if returns.length < 2 then return Fl.val 0
  let downside_returns := (dropNa returns).filter (fun x => x < 0)
  if downside_returns.length = 0 then return Fl.posInf
  if downside_returns.length = 1 then return Fl.nan
  let μ := listMean (dropNa returns)
  let vd := sampleVar downside_returns
  if vd = 0 then
    if 0 < μ then return Fl.posInf
    else if μ < 0 then return Fl.negInf
    else return Fl.nan
  else return Fl.sqrtMul μ (252 / vd)

/-- Helper for `(1 + returns).cumprod()` with the pandas skipna behavior: a
NaN cell stays NaN and does not poison the running product of the non-NaN
cells. -/
def cumprodGo (acc : ℚ) : Col → Col
  | [] => []
  | none :: t => none :: cumprodGo acc t
  | some x :: t => some (acc * (1 + x)) :: cumprodGo (acc * (1 + x)) t

/-- The series `(1 + df[returns]).cumprod()`. -/
def cumprod1p (returns : Col) : Col :=
  cumprodGo 1 returns

/-- Helper for `series.expanding().max()`: cell i is the maximum of the
non-NaN cells among the first i+1 cells, NaN while no such cell exists. -/
def expMaxGo (m : Option ℚ) : Col → Col
  | [] => []
  | none :: t => m :: expMaxGo m t
  | some x :: t =>
    match m with
    | none => some x :: expMaxGo (some x) t
    | some y => some (max y x) :: expMaxGo (some (max y x)) t

/-- The expanding maximum `series.expanding().max()`. -/
def expandingMax (col : Col) : Col :=
  expMaxGo none col

/-- One cell of `cumulative_returns / rolling_max - 1`; NaN cells propagate.
The claims only exercise nonzero peaks, where rational division is exact. -/
def ddCell (c p : Option ℚ) : Option ℚ :=
  match c, p with
  | some c, some p => some (c / p - 1)
  | _, _ => none

/-- The pandas `series.min()`: minimum of the non-NaN cells, NaN when there
is none. -/
def seriesMin (col : Col) : Option ℚ :=
  match dropNa col with
  | [] => none
  | x :: xs => some (xs.foldl min x)

/-- Embedding of `calculate_max_drawdown` (metrics.py lines 114-119):
`cumulative_returns = (1 + df[returns]).cumprod()`,
`rolling_max = cumulative_returns.expanding().max()`,
`drawdowns = cumulative_returns / rolling_max - 1`,
return `abs(drawdowns.min())`. -/
def calculate_max_drawdown (df : Frame) : Except PyErr Fl := do
  let returns ← getCol df "returns"
  let cumulative_returns := cumprod1p returns
  let rolling_max := expandingMax cumulative_returns
  let drawdowns := List.zipWith ddCell cumulative_returns rolling_max
  match seriesMin drawdowns with
  | none => return Fl.nan
  | some m => return Fl.val |m|

/-- Embedding of `calculate_win_rate` (metrics.py lines 121-127): returns 0.0
when the trade_returns column is absent or empty; otherwise the count of
strictly positive cells over the count of non-NaN cells (0.0 when the latter
is 0). -/
def calculate_win_rate (df : Frame) : Fl :=
  match colOpt df "trade_returns" with
  | none => Fl.val 0
  | some col =>
    if col.length = 0 then Fl.val 0
    else
      let winning_trades := (dropNa col).countP (fun x => decide (0 < x))
      let total_trades := (dropNa col).length
      if 0 < total_trades then Fl.val ((winning_trades : ℚ) / (total_trades : ℚ))
      else Fl.val 0

/-- Embedding of `calculate_profit_factor` (metrics.py lines 129-135): returns
0.0 when the trade_returns column is absent or empty; otherwise the sum of the
positive cells over the absolute sum of the negative cells, and positive
infinity when the latter is 0. -/
def calculate_profit_factor (df : Frame) : Fl :=
  match colOpt df "trade_returns" with
  | none => Fl.val 0
  | some col =>
    if col.length = 0 then Fl.val 0
    else
      let gains := ((dropNa col).filter (fun x => 0 < x)).sum
      let losses := |((dropNa col).filter (fun x => x < 0)).sum|
      if losses ≠ 0 then Fl.val (gains / losses) else Fl.posInf

/-- Embedding of `calculate_average_trade` (metrics.py lines 137-141): 0.0
when the trade_returns column is absent or empty, otherwise the skipna mean
(NaN when every cell is NaN). -/
def calculate_average_trade (df : Frame) : Fl :=
  match colOpt df "trade_returns" with
  | none => Fl.val 0
  | some col =>
    if col.length = 0 then Fl.val 0
    else
      match dropNa col with
      | [] => Fl.nan
      | x :: xs => Fl.val (listMean (x :: xs))

/-- Embedding of `calculate_average_position_size` (metrics.py lines 143-147):
0.0 when the position_size column is absent, otherwise the skipna mean of the
absolute values (NaN when every cell is NaN). -/
def calculate_average_position_size (df : Frame) : Fl :=
  match colOpt df "position_size" with
  | none => Fl.val 0
  | some col =>
    match (dropNa col).map (fun x => |x|) with
    | [] => Fl.nan
    | x :: xs => Fl.val (listMean (x :: xs))

/-- Categories for grouping metrics (metrics.py lines 7-13). -/
inductive MetricCategory where
  | RETURNS
  | RISK
  | RATIOS
  | TRADES
  | POSITION
deriving DecidableEq

/-- The `Metric` dataclass (metrics.py lines 15-23).  Note the field names:
the dataclass declares `requires_columns` and `calculation_function`.  The
metric functions that index a column unguardedly can raise `KeyError`, hence
the `Except` codomain; the guarded ones are wrapped with `.ok`. -/
structure Metric where
  name : String
  description : String
  category : MetricCategory
  higher_is_better : Option Bool
  requires_columns : List String
  calculation_function : Frame → Except PyErr Fl

/-- The `OptimizationObjective` dataclass (metrics.py lines 25-31). -/
structure OptimizationObjective where
  name : String
  description : String
  higher_is_better : Bool
  metric_name : String

/-- The registry `AVAILABLE_METRICS` (metrics.py lines 150-207). -/
def AVAILABLE_METRICS : List (String × Metric) := [
  ("sharpe_ratio",
    { name := "Sharpe Ratio"
      description := "Risk-adjusted return using standard deviation of returns"
      category := MetricCategory.RATIOS
      higher_is_better := some true
      requires_columns := ["returns"]
      calculation_function := calculate_sharpe_ratio }),
  ("sortino_ratio",
    { name := "Sortino Ratio"
      description := "Risk-adjusted return using downside deviation"
      category := MetricCategory.RATIOS
      higher_is_better := some true
      requires_columns := ["returns"]
      calculation_function := calculate_sortino_ratio }),
  ("max_drawdown",
    { name := "Maximum Drawdown"
      description := "Maximum peak to trough decline"
      category := MetricCategory.RISK
      higher_is_better := some false
      requires_columns := ["returns"]
      calculation_function := calculate_max_drawdown }),
  ("win_rate",
    { name := "Win Rate"
      description := "Percentage of winning trades"
      category := MetricCategory.TRADES
      higher_is_better := some true
      requires_columns := ["trade_returns"]
      calculation_function := fun df => .ok (calculate_win_rate df) }),
  ("profit_factor",
    { name := "Profit Factor"
      description := "Ratio of gross profits to gross losses"
      category := MetricCategory.TRADES
      higher_is_better := some true
      requires_columns := ["trade_returns"]
      calculation_function := fun df => .ok (calculate_profit_factor df) }),
  ("average_trade",
    { name := "Average Trade"
      description := "Average return per trade"
      category := MetricCategory.TRADES
      higher_is_better := some true
      requires_columns := ["trade_returns"]
      calculation_function := fun df => .ok (calculate_average_trade df) }),
  ("average_position_size",
    { name := "Average Position Size"
      description := "Average absolute position size"
      category := MetricCategory.POSITION
      higher_is_better := none
      requires_columns := ["position_size"]
      calculation_function := fun df => .ok (calculate_average_position_size df) })]

/-- Dictionary lookup in `AVAILABLE_METRICS`. -/
def lookupMetric (metric_name : String) : Option Metric :=
  (AVAILABLE_METRICS.find? (fun p => p.1 == metric_name)).map Prod.snd

/-- The catalog `OPTIMIZATION_OBJECTIVES` (metrics.py lines 210-235). -/
def OPTIMIZATION_OBJECTIVES : List (String × OptimizationObjective) := [
  ("sharpe_ratio",
    { name := "Maximize Sharpe Ratio"
      description := "Optimize for risk-adjusted returns"
      higher_is_better := true
      metric_name := "sharpe_ratio" }),
  ("sortino_ratio",
    { name := "Maximize Sortino Ratio"
      description := "Optimize for downside risk-adjusted returns"
      higher_is_better := true
      metric_name := "sortino_ratio" }),
  ("max_drawdown",
    { name := "Minimize Maximum Drawdown"
      description := "Optimize for capital preservation"
      higher_is_better := false
      metric_name := "max_drawdown" }),
  ("profit_factor",
    { name := "Maximize Profit Factor"
      description := "Optimize for trade profitability"
      higher_is_better := true
      metric_name := "profit_factor" })]

/-- Dictionary lookup in `OPTIMIZATION_OBJECTIVES`. -/
def lookupObjective (objective_name : String) : Option OptimizationObjective :=
  (OPTIMIZATION_OBJECTIVES.find? (fun p => p.1 == objective_name)).map Prod.snd

/-- Helper for `df[Close].pct_change()` with the pandas default forward
fill: the first cell (and any cell before the first non-NaN value) is NaN; a
NaN cell after a value v is treated as v, giving a change of 0.  A zero
previous value, where IEEE arithmetic would give an infinity, is modeled as
NaN; no claim reads the synthesized column, only its name matters. -/
def pctChangeGo : Option ℚ → Col → Col
  | none, [] => []
  | none, c :: t => none :: pctChangeGo c t
  | some _, [] => []
  | some p, c :: t =>
    let x := match c with
      | none => p
      | some x => x
    (if p = 0 then none else some ((x - p) / p)) :: pctChangeGo (some x) t

/-- The series `df[Close].pct_change()`. -/
def pctChange (col : Col) : Col :=
  pctChangeGo none col

/-- The series `series.shift(1)`: a leading NaN, dropping the last cell. -/
def shift1 (col : Col) : Col :=
  match col with
  | [] => []
  | _ :: _ => none :: col.dropLast

/-- One cell of an elementwise product; NaN propagates. -/
def mulCell (a b : Option ℚ) : Option ℚ :=
  match a, b with
  | some x, some y => some (x * y)
  | _, _ => none

/-- Embedding of the preamble of `BaseStrategy.calculate_metrics`
(base_strategy.py lines 28-35): reject a missing run (no data or no Signal
column), then synthesize the Returns column from Close (a `KeyError` when
Close is also absent) and the Strategy_Returns column when absent.  The
synthesized names are capitalized and distinct from every lowercase column a
registry metric requires. -/
def preprocessData (data : Option Frame) : Except PyErr Frame := do
  match data with
  | none => .error (.valueError "Strategy must be run before calculating metrics")
  | some df =>
    if ¬ hasCol df "Signal" then
      .error (.valueError "Strategy must be run before calculating metrics")
    else do
      let df1 ←
        if hasCol df "Returns" then pure df
        else do
          let close ← getCol df "Close"
          pure (df ++ [("Returns", pctChange close)])
      let df2 ←
        if hasCol df1 "Strategy_Returns" then pure df1
        else do
          let signal ← getCol df1 "Signal"
          let rets ← getCol df1 "Returns"
          pure (df1 ++ [("Strategy_Returns", List.zipWith mulCell (shift1 signal) rets)])
      return df2

/-- The metric loop of `BaseStrategy.calculate_metrics` (base_strategy.py
lines 42-58) as written in the source.  Line 49 reads the attribute
`metric.requires` and line 55 reads `metric.function`, but the `Metric`
dataclass (metrics.py lines 15-23) declares the fields `requires_columns` and
`calculation_function`; the first attribute lookup on any registered metric
therefore raises `AttributeError` before the missing-column check can run. -/
def metricsLoop (_df : Frame) (performance_metrics : List (String × Option Fl)) :
    List String → Except PyErr (List (String × Option Fl))
  | [] => .ok performance_metrics
  | metric_name :: _rest =>
    match lookupMetric metric_name with
    | none => .error (.valueError ("Unknown metric: " ++ metric_name))
    | some _metric => .error (.attributeError "requires")

/-- Embedding of `BaseStrategy.calculate_metrics` (base_strategy.py lines
26-60) as written.  `data` is `self.data`, `performance_metrics` the dict
accumulated on the instance, `metrics_list` the optional argument (the
default `None` selects every registry key). -/
def calculate_metrics (data : Option Frame)
    (performance_metrics : List (String × Option Fl))
    (metrics_list : Option (List String)) : Except PyErr (List (String × Option Fl)) := do
  let df ← preprocessData data
  let names := metrics_list.getD (AVAILABLE_METRICS.map Prod.fst)
  metricsLoop df performance_metrics names

/-- Dictionary update used by the metric loop: Python dict assignment
overwrites an existing key and appends a new one. -/
def updateDict (d : List (String × Option Fl)) (k : String) (v : Option Fl) :
    List (String × Option Fl) :=
  if d.any (fun p => p.1 == k) then d.map (fun p => if p.1 == k then (k, v) else p)
  else d ++ [(k, v)]

/-- The metric loop of `BaseStrategy.calculate_metrics` with the two
attribute names resolved to the fields the `Metric` dataclass actually
declares (`requires` to `requires_columns`, `function` to
`calculation_function`) — the manifest intent of base_strategy.py lines
42-58, used to settle what the loop does beyond the attribute slip: a
non-empty missing-column list raises a `ValueError` listing exactly the
missing names (aborting the whole call), a failing calculation is caught and
recorded as `None`, a successful one is recorded as its value. -/
def metricsLoopFixed (df : Frame) (performance_metrics : List (String × Option Fl)) :
    List String → Except PyErr (List (String × Option Fl))
  | [] => .ok performance_metrics
  | metric_name :: rest =>
    match lookupMetric metric_name with
    | none => .error (.valueError ("Unknown metric: " ++ metric_name))
    | some metric =>
      let missing_columns := metric.requires_columns.filter (fun col => ¬ hasCol df col)
      if missing_columns ≠ [] then .error (.missingColumnsError metric_name missing_columns)
      else
        match metric.calculation_function df with
        | .ok v => metricsLoopFixed df (updateDict performance_metrics metric_name (some v)) rest
        | .error _ => metricsLoopFixed df (updateDict performance_metrics metric_name none) rest

/-- The variant of `calculate_metrics` built on `metricsLoopFixed`. -/
def calculate_metrics_fixed (data : Option Frame)
    (performance_metrics : List (String × Option Fl))
    (metrics_list : Option (List String)) : Except PyErr (List (String × Option Fl)) := do
  let df ← preprocessData data
  let names := metrics_list.getD (AVAILABLE_METRICS.map Prod.fst)
  metricsLoopFixed df performance_metrics names

/-- Search direction of an optuna study. -/
inductive Direction where
  | maximize
  | minimize
deriving DecidableEq

/-- State of a `StrategyOptimizer` (optimization.py lines 8-17) relevant to
the claims: the validated objective name and the additional metric names.
The strategy class and symbol are the abstract collaborator; a trial is
driven by the outcome of its `run_strategy` call, passed in explicitly. -/
structure StrategyOptimizer where
  objective_name : String
  additional_metrics : List String

/-- Embedding of `StrategyOptimizer.__init__` (optimization.py lines 8-17):
an unknown objective name raises `ValueError`; nothing else is validated. -/
def StrategyOptimizer.init (objective_name : String) (additional_metrics : List String) :
    Except PyErr StrategyOptimizer :=
  if (lookupObjective objective_name).isNone then
    .error (.valueError ("Unknown optimization objective: " ++ objective_name))
  else .ok ⟨objective_name, additional_metrics⟩

/-- Python `metrics.get(key, default)` on the accumulated metrics dict: the
default applies only when the key is absent; a key stored as `None` is
returned as `None`. -/
def dictGet (d : List (String × Option Fl)) (k : String) : Option (Option Fl) :=
  (d.find? (fun p => p.1 == k)).map Prod.snd

/-- Embedding of `StrategyOptimizer.objective` (optimization.py lines 37-60).
`run_result` is the outcome of `strategy.run_strategy()` for the trial: an
exception there is caught and the literal `float(-inf)` returned — the
configured study direction is not consulted.  On a successful run the metrics
are calculated (any exception there propagates) and
`metrics.get(objective_name, float(-inf))` is returned; the value can be the
stored `None`, hence the `Option Fl` payload. -/
def StrategyOptimizer.objective (opt : StrategyOptimizer)
    (run_result : Except PyErr Frame) : Except PyErr (Option Fl) :=
  match run_result with
  | .error _ => .ok (some Fl.negInf)
  | .ok df => do
    let metrics_to_calculate := opt.objective_name :: opt.additional_metrics
    let metrics ← calculate_metrics (some df) [] (some metrics_to_calculate)
    .ok ((dictGet metrics opt.objective_name).getD (some Fl.negInf))

/-- Model of an optuna study after `study.optimize`: the configured direction
and the objective values of the evaluated trials in order. -/
structure Study where
  direction : Direction
  values : List (Option Fl)
deriving DecidableEq

/-- Sequential trial evaluation performed by `study.optimize`: trial i runs
the strategy with outcome `runs i`; an exception escaping the objective
propagates (optuna catches nothing by default). -/
def runTrialsFrom (opt : StrategyOptimizer) (runs : ℕ → Except PyErr Frame) (i : ℕ) :
    ℕ → Except PyErr (List (Option Fl))
  | 0 => .ok []
  | n + 1 => do
    let v ← opt.objective (runs i)
    let rest ← runTrialsFrom opt runs (i + 1) n
    .ok (v :: rest)

/-- Embedding of `StrategyOptimizer.optimize` (optimization.py lines 62-68):
the study is created with the requested direction and the objective evaluated
`n_trials` times immediately.  No consistency check between the direction and
the declared polarity of the objective appears anywhere in the body. -/
def StrategyOptimizer.optimize (opt : StrategyOptimizer) (n_trials : ℕ)
    (direction : Direction) (runs : ℕ → Except PyErr Frame) : Except PyErr Study := do
  let values ← runTrialsFrom opt runs 0 n_trials
  .ok ⟨direction, values⟩

/-- State of a `MultiObjectiveOptimizer` (optimization.py lines 78-90): the
validated list of objective names (the superclass constructor is called with
the first of them, already known to be registered). -/
structure MultiObjectiveOptimizer where
  objectives : List String

/-- Embedding of `MultiObjectiveOptimizer.__init__` (optimization.py lines
81-90): an empty list and an unknown objective name raise `ValueError`;
nothing else is validated. -/
def MultiObjectiveOptimizer.init (objectives : List String) :
    Except PyErr MultiObjectiveOptimizer :=
  if objectives.isEmpty then .error (.valueError "At least one objective must be specified")
  else
    match objectives.find? (fun o => (lookupObjective o).isNone) with
    | some o => .error (.valueError ("Unknown optimization objective: " ++ o))
    | none => .ok ⟨objectives⟩

/-- Embedding of `MultiObjectiveOptimizer.objective` (optimization.py lines
92-110): an exception in `run_strategy` is caught and the literal list
`[float(-inf)] * len(objectives)` returned — one negative infinity per
objective, independent of each per-objective direction. -/
def MultiObjectiveOptimizer.objective (opt : MultiObjectiveOptimizer)
    (run_result : Except PyErr Frame) : Except PyErr (List (Option Fl)) :=
  match run_result with
  | .error _ => .ok (List.replicate opt.objectives.length (some Fl.negInf))
  | .ok df => do
    let metrics ← calculate_metrics (some df) [] (some opt.objectives)
    .ok (opt.objectives.map (fun o => (dictGet metrics o).getD (some Fl.negInf)))

/-- Embedding of the direction derivation in `MultiObjectiveOptimizer.optimize`
(optimization.py lines 112-115): maximize for a higher-is-better objective,
minimize otherwise; `OPTIMIZATION_OBJECTIVES[obj]` raises `KeyError` on an
unknown name. -/
def multiDirections (objectives : List String) : Except PyErr (List Direction) :=
  objectives.mapM (fun o =>
    match lookupObjective o with
    | some ob => .ok (if ob.higher_is_better then Direction.maximize else Direction.minimize)
    | none => .error (.keyError o))

/-- Attribute state of a `GeneticStrategy` instance
(genetic_strategy.py lines 17-35).  Python attributes are dynamically typed;
the five numeric configuration attributes are modeled in ℚ so that
`set_parameters` can store any numeric value, exactly as `setattr` does. -/
structure GeneticStrategy where
  symbol : String
  population_size : ℚ
  generations : ℚ
  mutation_rate : ℚ
  crossover_rate : ℚ
  elite_size : ℚ
deriving DecidableEq

/-- Embedding of `GeneticStrategy.__init__` (genetic_strategy.py lines
17-35): every argument is stored verbatim; no relation between `elite_size`
and `population_size` (nor any bound on the rates) is checked. -/
def GeneticStrategy.init (symbol : String)
    (population_size generations mutation_rate crossover_rate elite_size : ℚ) :
    GeneticStrategy :=
  ⟨symbol, population_size, generations, mutation_rate, crossover_rate, elite_size⟩

/-- One `setattr(self, key, value)` step of `GeneticStrategy.set_parameters`
(genetic_strategy.py lines 146-150), restricted to the five modeled numeric
attributes; `hasattr` is false for any other key in the model, so the pair is
ignored. -/
def setattrStep (s : GeneticStrategy) (kv : String × ℚ) : GeneticStrategy :=
  if kv.1 == "population_size" then
    ⟨s.symbol, kv.2, s.generations, s.mutation_rate, s.crossover_rate, s.elite_size⟩
  else if kv.1 == "generations" then
    ⟨s.symbol, s.population_size, kv.2, s.mutation_rate, s.crossover_rate, s.elite_size⟩
  else if kv.1 == "mutation_rate" then
    ⟨s.symbol, s.population_size, s.generations, kv.2, s.crossover_rate, s.elite_size⟩
  else if kv.1 == "crossover_rate" then
    ⟨s.symbol, s.population_size, s.generations, s.mutation_rate, kv.2, s.elite_size⟩
  else if kv.1 == "elite_size" then
    ⟨s.symbol, s.population_size, s.generations, s.mutation_rate, s.crossover_rate, kv.2⟩
  else s

/-- Embedding of `GeneticStrategy.set_parameters` (genetic_strategy.py lines
146-150): assign each value to the matching attribute, ignore unknown keys,
validate nothing, raise nothing. -/
def set_parameters (s : GeneticStrategy) (parameters : List (String × ℚ)) :
    Except PyErr GeneticStrategy :=
  .ok (parameters.foldl setattrStep s)

/-- Embedding of `random.sample(population, k)`.  The call raises
`ValueError` when the population has fewer than k members; otherwise it
returns the members at the drawn index list.  The index lists the library
call can actually produce are exactly those of length k without duplicates
and within range; theorems carry that as a hypothesis on `draw`. -/
def randomSample {Ind : Type} [Inhabited Ind] (population : List Ind) (k : ℕ)
    (draw : List ℕ) : Except PyErr (List Ind) :=
  if population.length < k then
    .error (.valueError "Sample larger than population or is negative")
  else .ok (draw.map (fun i => population.getD i default))

/-- Embedding of the Python builtin `max(iterable, key=fit)`: raises
`ValueError` on an empty iterable, otherwise returns the first element whose
key is maximal (a later element replaces the current winner only when its key
is strictly greater). -/
def pyMax {Ind : Type} (fit : Ind → ℚ) : List Ind → Except PyErr Ind
  | [] => .error (.valueError "max() arg is an empty sequence")
  | x :: xs => .ok (xs.foldl (fun acc y => if fit acc < fit y then y else acc) x)

/-- Embedding of `GeneticStrategy.select_parents` (genetic_strategy.py lines
49-59): two tournaments, each a `random.sample` of 3 from the current
population followed by `max` keyed on fitness; the two slots consume
independent draws. -/
def select_parents {Ind : Type} [Inhabited Ind] (population : List Ind)
    (fit : Ind → ℚ) (drawA drawB : List ℕ) : Except PyErr (List Ind) := do
  let tournamentA ← randomSample population 3 drawA
  let winnerA ← pyMax fit tournamentA
  let tournamentB ← randomSample population 3 drawB
  let winnerB ← pyMax fit tournamentB
  .ok [winnerA, winnerB]

/-- One parent slot of `select_parents`: sample, then take the tournament
winner. -/
def selectOneParent {Ind : Type} [Inhabited Ind] (population : List Ind)
    (fit : Ind → ℚ) (draw : List ℕ) : Except PyErr Ind := do
  let t ← randomSample population 3 draw
  pyMax fit t

/-- Randomness consumed by one iteration of the reproduction loop
(genetic_strategy.py lines 94-107): `doCross` is the outcome of
`random.random() < self.crossover_rate`, `drawA`/`drawB` the index lists of
the two tournament samples, `cloneIdx` the index drawn by `random.choice`,
and `doMutate` the outcome of `random.random() < self.mutation_rate`. -/
structure FillDraw where
  doCross : Bool
  drawA : List ℕ
  drawB : List ℕ
  cloneIdx : ℕ
  doMutate : Bool

/-- Embedding of `random.choice(population)`: `IndexError` on an empty
population, otherwise the member at the drawn index (normalized into range;
the library draws uniformly over the valid indices). -/
def randomChoice {Ind : Type} [Inhabited Ind] (population : List Ind) (idx : ℕ) :
    Except PyErr Ind :=
  if population.isEmpty then .error .indexError
  else .ok (population.getD (idx % population.length) default)

/-- One iteration of the reproduction loop body (genetic_strategy.py lines
95-107): crossover of two tournament parents, or a clone, then optional
mutation.  The crossover and mutation operators are the abstract,
subclass-supplied operations. -/
def fillStep {Ind : Type} [Inhabited Ind] (population : List Ind) (fit : Ind → ℚ)
    (crossover : Ind → Ind → Ind) (mutate : Ind → Ind) (d : FillDraw) :
    Except PyErr Ind := do
  let child ←
    if d.doCross then do
      let parents ← select_parents population fit d.drawA d.drawB
      pure (crossover (parents.getD 0 default) (parents.getD 1 default))
    else randomChoice population d.cloneIdx
  pure (if d.doMutate then mutate child else child)

/-- The reproduction `while` loop (genetic_strategy.py lines 94-107), with an
explicit iteration count: every iteration appends exactly one child, so the
loop runs exactly `population_size - len(new_population)` iterations; `gas`
is that count, and the guard is re-checked each iteration exactly as in the
source.  `draws n` is the randomness consumed by the iteration that starts
with n members. -/
def fillFuel {Ind : Type} [Inhabited Ind] (population_size : ℕ) (population : List Ind)
    (fit : Ind → ℚ) (crossover : Ind → Ind → Ind) (mutate : Ind → Ind)
    (draws : ℕ → FillDraw) : ℕ → List Ind → Except PyErr (List Ind)
  | 0, new_population => .ok new_population
  | gas + 1, new_population =>
    if new_population.length < population_size then
      match fillStep population fit crossover mutate (draws new_population.length) with
      | .error e => .error e
      | .ok child =>
        fillFuel population_size population fit crossover mutate draws gas
          (new_population ++ [child])
    else .ok new_population

/-- The reproduction loop entered with the elites already appended. -/
def fillLoop {Ind : Type} [Inhabited Ind] (population_size : ℕ) (population : List Ind)
    (fit : Ind → ℚ) (crossover : Ind → Ind → Ind) (mutate : Ind → Ind)
    (draws : ℕ → FillDraw) (new_population : List Ind) : Except PyErr (List Ind) :=
  fillFuel population_size population fit crossover mutate draws
    (population_size - new_population.length) new_population

/-- Total order on indices used to model `np.argsort(fitness_scores)`:
ascending score, ties in ascending index order (the behavior of a stable
argsort; the reversal below then puts equal scores in descending index
order). -/
def idxLe (scores : List ℚ) (i j : ℕ) : Prop :=
  scores.getD i 0 < scores.getD j 0 ∨ (scores.getD i 0 = scores.getD j 0 ∧ i ≤ j)

instance (scores : List ℚ) : DecidableRel (idxLe scores) := fun i j => by
  unfold idxLe; infer_instance

/-- The ascending argsort `np.argsort(fitness_scores)`. -/
def argsortAsc (scores : List ℚ) : List ℕ :=
  List.insertionSort (idxLe scores) (List.range scores.length)

/-- The descending index order `np.argsort(fitness_scores)[::-1]`
(genetic_strategy.py line 89). -/
def argsortDesc (scores : List ℚ) : List ℕ :=
  (argsortAsc scores).reverse

/-- The elitism loop (genetic_strategy.py lines 90-91):
`for i in range(elite_size): new_population.append(population[sorted_indices[i]])`;
indexing `sorted_indices[i]` past the end raises `IndexError`. -/
def eliteSelect {Ind : Type} [Inhabited Ind] (population : List Ind)
    (sorted_indices : List ℕ) (elite_size : ℕ) : Except PyErr (List Ind) :=
  if elite_size ≤ sorted_indices.length then
    .ok ((sorted_indices.take elite_size).map (fun i => population.getD i default))
  else .error .indexError

/-- Construction of the next generation (genetic_strategy.py lines 85-109):
elitism from the reversed argsort of the fitness scores, then the
reproduction loop up to `population_size`. -/
def nextGeneration {Ind : Type} [Inhabited Ind] (population_size elite_size : ℕ)
    (fit : Ind → ℚ) (crossover : Ind → Ind → Ind) (mutate : Ind → Ind)
    (population : List Ind) (draws : ℕ → FillDraw) : Except PyErr (List Ind) := do
  let fitness_scores := population.map fit
  let sorted_indices := argsortDesc fitness_scores
  let elites ← eliteSelect population sorted_indices elite_size
  fillLoop population_size population fit crossover mutate draws elites

/-- Helper for `np.argmax`: index of the first maximal score. -/
def npArgmaxGo (best : ℚ) (bestIdx i : ℕ) : List ℚ → ℕ
  | [] => bestIdx
  | x :: xs => if best < x then npArgmaxGo x i (i + 1) xs else npArgmaxGo best bestIdx (i + 1) xs

/-- Embedding of `np.argmax(fitness_scores)`: `ValueError` on an empty list,
otherwise the index of the first maximal score. -/
def npArgmax (scores : List ℚ) : Except PyErr ℕ :=
  match scores with
  | [] => .error (.valueError "attempt to get argmax of an empty sequence")
  | x :: xs => .ok (npArgmaxGo x 0 1 xs)

/-- One generation of `GeneticStrategy.evolve` (genetic_strategy.py lines
73-109): evaluate the fitness of every member, update the best-ever
individual, record the mean fitness into the history, then build the next
generation.  The mean and best are computed, and the history entry appended,
before reproduction runs, so they are returned even when reproduction fails:
the outer `Except` covers the failures up to the history append (an empty
population fails at `np.argmax`), the inner one the reproduction step. -/
def evolveStep {Ind : Type} [Inhabited Ind] (population_size elite_size : ℕ)
    (fit : Ind → ℚ) (crossover : Ind → Ind → Ind) (mutate : Ind → Ind)
    (best_individual : Option Ind) (population : List Ind) (draws : ℕ → FillDraw) :
    Except PyErr (Ind × ℚ × Except PyErr (List Ind)) := do
  let fitness_scores := population.map fit
  let best_idx ← npArgmax fitness_scores
  let new_best :=
    match best_individual with
    | none => population.getD best_idx default
    | some b =>
      if fit b < fitness_scores.getD best_idx 0 then population.getD best_idx default else b
  let mean_fitness := fitness_scores.sum / (fitness_scores.length : ℚ)
  .ok (new_best, mean_fitness,
    nextGeneration population_size elite_size fit crossover mutate population draws)

/-- Modelled from the spec: the worst possible value for the configured
search direction — negative infinity when maximizing, positive infinity when
minimizing (spec section 4.3 item 5). -/
def worstFor : Direction → Fl
  | .maximize => Fl.negInf
  | .minimize => Fl.posInf

/-- Modelled from the spec: a tournament that samples 3 individuals WITH
replacement (spec section 4.5 step 2) — the three index draws may coincide —
and returns the sampled individual with the highest fitness. -/
def tournamentWinnerWR {Ind : Type} [Inhabited Ind] (population : List Ind)
    (fit : Ind → ℚ) (i j k : ℕ) : Except PyErr Ind :=
  pyMax fit [population.getD i default, population.getD j default, population.getD k default]

/-- Modelled from the spec: the elite index order of a STABLE descending sort
in which equal-fitness individuals keep their original population order (spec
section 4.5 step 1). -/
def specStableDescIdx (scores : List ℚ) : List ℕ :=
  List.insertionSort
    (fun i j => scores.getD j 0 < scores.getD i 0 ∨ (scores.getD i 0 = scores.getD j 0 ∧ i ≤ j))
    (List.range scores.length)

/-- Modelled from the spec: the elites the spec describes — the top
`elite_size` by descending fitness, ties kept in original population
order. -/
def specEliteStable {Ind : Type} [Inhabited Ind] (population : List Ind)
    (fit : Ind → ℚ) (elite_size : ℕ) : List Ind :=
  ((specStableDescIdx (population.map fit)).take elite_size).map
    (fun i => population.getD i default)

/-- Modelled from the spec: the declared bound of the mutation_rate
configuration option, `mutation_rate ∈ [0,1]` (spec section 6). -/
def mutationRateInBounds (q : ℚ) : Prop :=
  0 ≤ q ∧ q ≤ 1

/-- Helper for the cumulative product over an all-finite returns column, in
ℚ (the image of `cumprodGo` on NaN-free columns). -/
def cumprodQGo (acc : ℚ) : List ℚ → List ℚ
  | [] => []
  | x :: t => (acc * (1 + x)) :: cumprodQGo (acc * (1 + x)) t

/-- The series `(1 + returns).cumprod()` on an all-finite returns column. -/
def cumprodQ (l : List ℚ) : List ℚ :=
  cumprodQGo 1 l

/-- Helper for the expanding maximum on an all-finite column, in ℚ. -/
def expMaxQGo (m : ℚ) : List ℚ → List ℚ
  | [] => []
  | x :: t => max m x :: expMaxQGo (max m x) t

/-- The expanding maximum on an all-finite column, in ℚ. -/
def expandingMaxQ : List ℚ → List ℚ
  | [] => []
  | x :: t => x :: expMaxQGo x t

/-- Modelled from the spec: the drawdown series, `(value - running peak) /
running peak` over an expanding window (spec section 4.1), of a cumulative
value series. -/
def specDrawdowns (cum : List ℚ) : List ℚ :=
  List.zipWith (fun c p => (c - p) / p) cum (expandingMaxQ cum)

/-- Minimum of a rational list (junk value 0 on the empty list; every use is
guarded to non-empty lists). -/
def minQ : List ℚ → ℚ
  | [] => 0
  | x :: xs => xs.foldl min x

/-- Concrete performance record used to exercise the metric loop: the Signal,
Returns and Strategy_Returns columns are present (so the preamble leaves the
frame unchanged), the lowercase returns column is present, and the
trade_returns column is absent. -/
def dfMetrics : Frame :=
  [("Signal", [some 1]), ("Returns", [some 0]),
   ("Strategy_Returns", [some 0]), ("returns", [some 0])]

/-!  Helper lemmas about the embedded operations, shared by the claim
theorems below. -/

theorem fillFuel_ok_append {Ind : Type} [Inhabited Ind] (ps : ℕ) (pop : List Ind)
    (fit : Ind → ℚ) (cross : Ind → Ind → Ind) (mu : Ind → Ind) (draws : ℕ → FillDraw) :
    ∀ (gas : ℕ) (acc out : List Ind),
      fillFuel ps pop fit cross mu draws gas acc = .ok out →
      ∃ ext, out = acc ++ ext := by
  intro gas
  induction gas with
  | zero =>
    intro acc out h
    simp only [fillFuel] at h
    cases h
    exact ⟨[], by simp⟩
  | succ k ih =>
    intro acc out h
    simp only [fillFuel] at h
    split at h
    · split at h
      · cases h
      · rename_i child _
        obtain ⟨ext, hext⟩ := ih (acc ++ [child]) out h
        exact ⟨child :: ext, by simp [hext]⟩
    · cases h
      exact ⟨[], by simp⟩

theorem fillFuel_ok_length {Ind : Type} [Inhabited Ind] (ps : ℕ) (pop : List Ind)
    (fit : Ind → ℚ) (cross : Ind → Ind → Ind) (mu : Ind → Ind) (draws : ℕ → FillDraw) :
    ∀ (gas : ℕ) (acc out : List Ind), gas = ps - acc.length →
      fillFuel ps pop fit cross mu draws gas acc = .ok out →
      out.length = max ps acc.length := by
  intro gas
  induction gas with
  | zero =>
    intro acc out hg h
    simp only [fillFuel] at h
    cases h
    omega
  | succ k ih =>
    intro acc out hg h
    simp only [fillFuel] at h
    split at h
    · rename_i hlt
      split at h
      · cases h
      · rename_i child _
        have hlen := ih (acc ++ [child]) out (by simp; omega) h
        simp only [List.length_append, List.length_singleton] at hlen
        omega
    · rename_i hge
      cases h
      omega

theorem argsortAsc_perm (scores : List ℚ) :
    (argsortAsc scores).Perm (List.range scores.length) :=
  List.perm_insertionSort _ _

theorem argsortDesc_length (scores : List ℚ) :
    (argsortDesc scores).length = scores.length := by
  simp [argsortDesc, (argsortAsc_perm scores).length_eq]

theorem eliteSelect_ok {Ind : Type} [Inhabited Ind] (population : List Ind)
    (sorted_indices : List ℕ) (elite_size : ℕ) (h : elite_size ≤ sorted_indices.length) :
    eliteSelect population sorted_indices elite_size =
      .ok ((sorted_indices.take elite_size).map (fun i => population.getD i default)) := by
  simp [eliteSelect, h]

theorem pyMax_go_spec {Ind : Type} (fit : Ind → ℚ) :
    ∀ (xs : List Ind) (acc : Ind),
      (xs.foldl (fun a y => if fit a < fit y then y else a) acc = acc ∨
        xs.foldl (fun a y => if fit a < fit y then y else a) acc ∈ xs) ∧
      fit acc ≤ fit (xs.foldl (fun a y => if fit a < fit y then y else a) acc) ∧
      ∀ y ∈ xs, fit y ≤ fit (xs.foldl (fun a y => if fit a < fit y then y else a) acc) := by
  intro xs
  induction xs with
  | nil => intro acc; simp
  | cons z zs ih =>
    intro acc
    simp only [List.foldl_cons]
    by_cases hz : fit acc < fit z
    · rw [if_pos hz]
      obtain ⟨hmem, hacc, hall⟩ := ih z
      refine ⟨?_, le_trans (le_of_lt hz) hacc, ?_⟩
      · rcases hmem with h | h
        · exact Or.inr (by simp [h])
        · exact Or.inr (by simp [h])
      · intro y hy
        rcases List.mem_cons.mp hy with rfl | hy
        · exact hacc
        · exact hall y hy
    · rw [if_neg hz]
      obtain ⟨hmem, hacc, hall⟩ := ih acc
      refine ⟨?_, hacc, ?_⟩
      · rcases hmem with h | h
        · exact Or.inl h
        · exact Or.inr (by simp [h])
      · intro y hy
        rcases List.mem_cons.mp hy with rfl | hy
        · exact le_trans (not_lt.mp hz) hacc
        · exact hall y hy

theorem pyMax_spec {Ind : Type} (fit : Ind → ℚ) (x : Ind) (xs : List Ind) :
    ∃ w, pyMax fit (x :: xs) = .ok w ∧ w ∈ x :: xs ∧ ∀ y ∈ x :: xs, fit y ≤ fit w := by
  obtain ⟨hmem, hacc, hall⟩ := pyMax_go_spec fit xs x
  refine ⟨_, rfl, ?_, ?_⟩
  · rcases hmem with h | h
    · rw [h]; exact List.mem_cons_self _ _
    · exact List.mem_cons_of_mem _ h
  · intro y hy
    rcases List.mem_cons.mp hy with rfl | hy
    · exact hacc
    · exact hall y hy

theorem nodup_draw_le_length {Ind : Type} (population : List Ind) (draw : List ℕ)
    (h3 : draw.length = 3) (hnd : draw.Nodup) (hmem : ∀ i ∈ draw, i < population.length) :
    3 ≤ population.length := by
  have hsub : draw ⊆ List.range population.length := fun i hi =>
    List.mem_range.mpr (hmem i hi)
  have := (List.subperm_of_subset hnd hsub).length_le
  simpa [h3] using this

theorem cumprodGo_map_some :
    ∀ (l : List ℚ) (acc : ℚ), cumprodGo acc (l.map some) = (cumprodQGo acc l).map some := by
  intro l
  induction l with
  | nil => intro acc; rfl
  | cons x t ih => intro acc; simp [cumprodGo, cumprodQGo, ih]

theorem cumprod1p_map_some (l : List ℚ) :
    cumprod1p (l.map some) = (cumprodQ l).map some :=
  cumprodGo_map_some l 1

theorem expMaxGo_some_map :
    ∀ (l : List ℚ) (m : ℚ), expMaxGo (some m) (l.map some) = (expMaxQGo m l).map some := by
  intro l
  induction l with
  | nil => intro m; rfl
  | cons x t ih => intro m; simp [expMaxGo, expMaxQGo, ih]

theorem expandingMax_map_some (l : List ℚ) :
    expandingMax (l.map some) = (expandingMaxQ l).map some := by
  cases l with
  | nil => rfl
  | cons x t => simp [expandingMax, expandingMaxQ, expMaxGo, expMaxGo_some_map]

theorem zipWith_ddCell_map_some :
    ∀ (a b : List ℚ), List.zipWith ddCell (a.map some) (b.map some) =
      (List.zipWith (fun c p => c / p - 1) a b).map some := by
  intro a
  induction a with
  | nil => intro b; simp
  | cons x t ih =>
    intro b
    cases b with
    | nil => simp
    | cons y u => simp [ddCell, ih]

theorem seriesMin_map_some (l : List ℚ) (h : l ≠ []) :
    seriesMin (l.map some) = some (minQ l) := by
  cases l with
  | nil => exact absurd rfl h
  | cons x t => simp [seriesMin, dropNa, minQ]

theorem zipWith_div_sub_one :
    ∀ (a b : List ℚ), (∀ p ∈ b, p ≠ 0) →
      List.zipWith (fun c p => c / p - 1) a b =
        List.zipWith (fun c p => (c - p) / p) a b := by
  intro a
  induction a with
  | nil => intro b _; simp
  | cons x t ih =>
    intro b hb
    cases b with
    | nil => simp
    | cons y u =>
      have hy : y ≠ 0 := hb y (List.mem_cons_self _ _)
      have hrest := ih u (fun p hp => hb p (List.mem_cons_of_mem _ hp))
      simp only [List.zipWith_cons_cons, hrest, List.cons.injEq, and_true]
      rw [sub_div, div_self hy]

theorem expMaxQGo_ne_zero :
    ∀ (l : List ℚ) (m : ℚ), m ≠ 0 → (∀ x ∈ l, x ≠ 0) →
      ∀ y ∈ expMaxQGo m l, y ≠ 0 := by
  intro l
  induction l with
  | nil => intro m _ _ y hy; simp [expMaxQGo] at hy
  | cons x t ih =>
    intro m hm hl y hy
    simp only [expMaxQGo, List.mem_cons] at hy
    have hx : x ≠ 0 := hl x (List.mem_cons_self _ _)
    have hmax : max m x ≠ 0 := by
      rcases max_choice m x with h | h <;> rw [h] <;> assumption
    rcases hy with rfl | hy
    · exact hmax
    · exact ih (max m x) hmax (fun z hz => hl z (List.mem_cons_of_mem _ hz)) y hy

theorem expandingMaxQ_ne_zero (l : List ℚ) (hl : ∀ x ∈ l, x ≠ 0) :
    ∀ y ∈ expandingMaxQ l, y ≠ 0 := by
  cases l with
  | nil => intro y hy; simp [expandingMaxQ] at hy
  | cons x t =>
    intro y hy
    simp only [expandingMaxQ, List.mem_cons] at hy
    have hx : x ≠ 0 := hl x (List.mem_cons_self _ _)
    rcases hy with rfl | hy
    · exact hx
    · exact expMaxQGo_ne_zero t x hx (fun z hz => hl z (List.mem_cons_of_mem _ hz)) y hy

theorem expMaxQGo_of_chain :
    ∀ (t : List ℚ) (m : ℚ), List.Chain (· ≤ ·) m t → expMaxQGo m t = t := by
  intro t
  induction t with
  | nil => intro m _; rfl
  | cons y u ih =>
    intro m hc
    cases hc with
    | cons hmy hyu => simp [expMaxQGo, max_eq_right hmy, ih y hyu]

theorem expandingMaxQ_of_chain (l : List ℚ) (h : List.Chain' (· ≤ ·) l) :
    expandingMaxQ l = l := by
  cases l with
  | nil => rfl
  | cons x t => simp [expandingMaxQ, expMaxQGo_of_chain t x h]

theorem foldl_min_zero :
    ∀ (xs : List ℚ), (∀ y ∈ xs, y = 0) → xs.foldl min 0 = 0 := by
  intro xs
  induction xs with
  | nil => intro _; rfl
  | cons x t ih =>
    intro h
    have hx : x = (0 : ℚ) := h x (List.mem_cons_self _ _)
    simp only [List.foldl_cons, hx, min_self]
    exact ih (fun y hy => h y (List.mem_cons_of_mem _ hy))

theorem minQ_of_all_zero (xs : List ℚ) (hne : xs ≠ []) (h : ∀ y ∈ xs, y = 0) :
    minQ xs = 0 := by
  cases xs with
  | nil => exact absurd rfl hne
  | cons x t =>
    have hx : x = (0 : ℚ) := h x (List.mem_cons_self _ _)
    simp only [minQ, hx]
    exact foldl_min_zero t (fun y hy => h y (List.mem_cons_of_mem _ hy))

theorem cumprodQGo_length :
    ∀ (l : List ℚ) (acc : ℚ), (cumprodQGo acc l).length = l.length := by
  intro l
  induction l with
  | nil => intro acc; rfl
  | cons x t ih => intro acc; simp [cumprodQGo, ih]

theorem expMaxQGo_length :
    ∀ (l : List ℚ) (m : ℚ), (expMaxQGo m l).length = l.length := by
  intro l
  induction l with
  | nil => intro m; rfl
  | cons x t ih => intro m; simp [expMaxQGo, ih]

theorem expandingMaxQ_length (l : List ℚ) : (expandingMaxQ l).length = l.length := by
  cases l with
  | nil => rfl
  | cons x t => simp [expandingMaxQ, expMaxQGo_length]

theorem specDrawdowns_length (cum : List ℚ) :
    (specDrawdowns cum).length = cum.length := by
  simp [specDrawdowns, expandingMaxQ_length]

/-- Closed form of `calculate_max_drawdown` on a NaN-free non-empty returns
column whose cumulative products avoid 0: the absolute value of the most
negative drawdown, drawdown being (value - running peak) / running peak. -/
theorem max_drawdown_formula (df : Frame) (rs : List ℚ)
    (hcol : colOpt df "returns" = some (rs.map some)) (hne : rs ≠ [])
    (hnz : ∀ x ∈ cumprodQ rs, x ≠ 0) :
    calculate_max_drawdown df = .ok (Fl.val |minQ (specDrawdowns (cumprodQ rs))|) := by
  have hget : getCol df "returns" = .ok (rs.map some) := by simp [getCol, hcol]
  have hpeaks : ∀ p ∈ expandingMaxQ (cumprodQ rs), p ≠ 0 := expandingMaxQ_ne_zero _ hnz
  have hform : List.zipWith (fun c p => c / p - 1) (cumprodQ rs) (expandingMaxQ (cumprodQ rs)) =
      specDrawdowns (cumprodQ rs) := by
    rw [specDrawdowns]
    exact zipWith_div_sub_one _ _ hpeaks
  have hddne : specDrawdowns (cumprodQ rs) ≠ [] := by
    intro hc
    have := congrArg List.length hc
    rw [specDrawdowns_length, cumprodQ, cumprodQGo_length] at this
    simp [List.length_eq_zero] at this
    exact hne this
  have hmin := seriesMin_map_some (specDrawdowns (cumprodQ rs)) hddne
  simp only [calculate_max_drawdown, Bind.bind, Except.bind, hget, cumprod1p_map_some,
    expandingMax_map_some, zipWith_ddCell_map_some, hform, hmin]
  rfl

/-- The cumulative products of a NaN-free series are never empty when the
series is not. -/
theorem cumprodQ_ne_nil (rs : List ℚ) (hne : rs ≠ []) : cumprodQ rs ≠ [] := by
  intro hc
  have := congrArg List.length hc
  rw [cumprodQ, cumprodQGo_length] at this
  simp [List.length_eq_zero] at this
  exact hne this

instance (scores : List ℚ) : IsTotal ℕ (idxLe scores) where
  total := by
    intro i j
    unfold idxLe
    rcases lt_trichotomy (scores.getD i 0) (scores.getD j 0) with h | h | h
    · exact Or.inl (Or.inl h)
    · rcases le_total i j with hij | hij
      · exact Or.inl (Or.inr ⟨h, hij⟩)
      · exact Or.inr (Or.inr ⟨h.symm, hij⟩)
    · exact Or.inr (Or.inl h)

instance (scores : List ℚ) : IsTrans ℕ (idxLe scores) where
  trans := by
    intro a b c hab hbc
    unfold idxLe at *
    rcases hab with h1 | ⟨e1, l1⟩
    · rcases hbc with h2 | ⟨e2, _⟩
      · exact Or.inl (h1.trans h2)
      · exact Or.inl (by rw [← e2]; exact h1)
    · rcases hbc with h2 | ⟨e2, l2⟩
      · exact Or.inl (by rw [e1]; exact h2)
      · exact Or.inr ⟨e1.trans e2, l1.trans l2⟩

theorem argsortAsc_sorted (scores : List ℚ) :
    List.Sorted (idxLe scores) (argsortAsc scores) :=
  List.sorted_insertionSort _ _

theorem argsortDesc_perm (scores : List ℚ) :
    (argsortDesc scores).Perm (List.range scores.length) := by
  rw [argsortDesc]
  exact (List.reverse_perm _).trans (argsortAsc_perm scores)

theorem argsortDesc_nodup (scores : List ℚ) : (argsortDesc scores).Nodup :=
  (argsortDesc_perm scores).nodup_iff.mpr (List.nodup_range _)

theorem argsortDesc_mem (scores : List ℚ) (i : ℕ) (h : i ∈ argsortDesc scores) :
    i < scores.length :=
  List.mem_range.mp ((argsortDesc_perm scores).mem_iff.mp h)

theorem argsortDesc_pairwise (scores : List ℚ) :
    List.Pairwise (fun i j => idxLe scores j i) (argsortDesc scores) := by
  rw [argsortDesc]
  exact List.pairwise_reverse.mpr (argsortAsc_sorted scores)

/-!  Claim theorems.  Each claim of the design document is settled by exactly
one theorem below; a corrected claim additionally has a counterexample
theorem refuting the claim as stated, and theorems with hypotheses have a
witness theorem instantiating them at concrete inputs. -/

/-- C2, counterexample: for a single-objective study configured to minimize
(a legal configuration, for example for the max_drawdown objective whose
declared polarity is lower-is-better) a trial whose strategy run raises is
scored negative infinity, which is not the worst possible value for the
minimize direction (that would be positive infinity); likewise the
multi-objective optimizer scores a failed trial with negative infinity for
every objective even when the derived per-objective directions are
[maximize, minimize]. -/
theorem claim_C2_counterexample :
    StrategyOptimizer.optimize ⟨"max_drawdown", []⟩ 1 Direction.minimize
      (fun _ => .error (.exception "strategy failed")) =
      .ok ⟨Direction.minimize, [some Fl.negInf]⟩ ∧
    worstFor Direction.minimize = Fl.posInf ∧
    Fl.negInf ≠ Fl.posInf ∧
    multiDirections ["sharpe_ratio", "max_drawdown"] =
      .ok [Direction.maximize, Direction.minimize] ∧
    MultiObjectiveOptimizer.objective ⟨["sharpe_ratio", "max_drawdown"]⟩
      (.error (.exception "strategy failed")) =
      .ok [some Fl.negInf, some Fl.negInf] ∧
    [some Fl.negInf, some Fl.negInf] ≠
      [some (worstFor Direction.maximize), some (worstFor Direction.minimize)] := by
  refine ⟨by decide, rfl, by decide, by decide, by decide, by decide⟩

/-- C2, amended: on a strategy-run failure the objective function does not
propagate the exception, but the value it returns is the literal negative
infinity regardless of the configured direction (one negative infinity per
objective in the multi-objective case) — the worst possible value only when
the direction is maximize; the surrounding search loop continues (a study
whose every run fails still evaluates every trial and completes). -/
theorem claim_C2_amended :
    (∀ (opt : StrategyOptimizer) (e : PyErr),
      opt.objective (.error e) = .ok (some Fl.negInf)) ∧
    (∀ (mo : MultiObjectiveOptimizer) (e : PyErr),
      mo.objective (.error e) = .ok (List.replicate mo.objectives.length (some Fl.negInf))) ∧
    (∀ (opt : StrategyOptimizer) (n : ℕ) (d : Direction) (runs : ℕ → Except PyErr Frame),
      (∀ i, ∃ e, runs i = .error e) →
      opt.optimize n d runs = .ok ⟨d, List.replicate n (some Fl.negInf)⟩) := by
  refine ⟨fun opt e => rfl, fun mo e => rfl, fun opt n d runs hfail => ?_⟩
  have key : ∀ (n i : ℕ), runTrialsFrom opt runs i n = .ok (List.replicate n (some Fl.negInf)) := by
    intro n
    induction n with
    | zero => intro i; rfl
    | succ k ih =>
      intro i
      obtain ⟨e, he⟩ := hfail i
      simp [runTrialsFrom, he, ih (i + 1), StrategyOptimizer.objective, Bind.bind, Except.bind,
        List.replicate_succ]
  simp [StrategyOptimizer.optimize, key n 0, Bind.bind, Except.bind]

/-- C2, witness: the amended statement applied to a concrete study of two
trials in the minimize direction whose every run fails. -/
theorem claim_C2_witness :
    StrategyOptimizer.optimize ⟨"max_drawdown", []⟩ 2 Direction.minimize
      (fun _ => .error (.exception "boom")) =
      .ok ⟨Direction.minimize, List.replicate 2 (some Fl.negInf)⟩ :=
  claim_C2_amended.2.2 ⟨"max_drawdown", []⟩ 2 Direction.minimize
    (fun _ => .error (.exception "boom")) (fun _ => ⟨.exception "boom", rfl⟩)

/-- C3, counterexample: a study over the sharpe_ratio objective (declared
polarity higher-is-better) configured with direction minimize is a
direction/polarity mismatch, yet the optimizer surfaces no error and runs
both trials; a GeneticStrategy constructed with elite_size 5 and
population_size 1 stores the misconfiguration verbatim, and the first
generation evaluates fitness (the best individual and the mean history entry
are produced) before the violation surfaces as an IndexError inside the
reproduction step. -/
theorem claim_C3_counterexample :
    (lookupObjective "sharpe_ratio").map OptimizationObjective.higher_is_better = some true ∧
    StrategyOptimizer.optimize ⟨"sharpe_ratio", []⟩ 2 Direction.minimize
      (fun _ => .error (.exception "fail")) =
      .ok ⟨Direction.minimize, [some Fl.negInf, some Fl.negInf]⟩ ∧
    GeneticStrategy.init "AAPL" 1 50 (1/10) (7/10) 5 = ⟨"AAPL", 1, 50, 1/10, 7/10, 5⟩ ∧
    ¬ ((5 : ℚ) ≤ 1) ∧
    evolveStep 1 5 (fun _ => (3 : ℚ)) (fun a _ => a) id none [(7 : ℕ)]
      (fun _ => ⟨false, [], [], 0, false⟩) = .ok (7, 3, .error .indexError) := by
  refine ⟨by decide, by decide, rfl, by norm_num, ?_⟩
  norm_num [evolveStep, npArgmax, npArgmaxGo, nextGeneration, argsortDesc, argsortAsc,
    eliteSelect, Bind.bind, Except.bind, List.getD]

/-- C3, amended: neither misconfiguration is detected before evaluation.
The optimizer performs no direction/polarity consistency check — the trial
evaluations are entirely independent of the configured direction — and the
GeneticStrategy constructor stores any elite_size/population_size pair
verbatim; an excessive elite_size surfaces only as an IndexError inside the
reproduction step, after the generation has evaluated the fitness of every
member (the mean fitness history entry is produced). -/
theorem claim_C3_amended {Ind : Type} [Inhabited Ind] (population_size elite_size : ℕ)
    (fit : Ind → ℚ) (crossover : Ind → Ind → Ind) (mutate : Ind → Ind)
    (best : Option Ind) (population : List Ind) (draws : ℕ → FillDraw)
    (hne : population ≠ []) (hes : population.length < elite_size) :
    (∀ (opt : StrategyOptimizer) (n : ℕ) (d₁ d₂ : Direction) (runs : ℕ → Except PyErr Frame),
      (opt.optimize n d₁ runs).map Study.values = (opt.optimize n d₂ runs).map Study.values) ∧
    (∀ (symbol : String) (ps gens mr cr es : ℚ),
      GeneticStrategy.init symbol ps gens mr cr es = ⟨symbol, ps, gens, mr, cr, es⟩) ∧
    (∃ b, evolveStep population_size elite_size fit crossover mutate best population draws =
      .ok (b, (population.map fit).sum / ((population.map fit).length : ℚ),
        .error .indexError)) := by
  refine ⟨?_, fun _ _ _ _ _ _ => rfl, ?_⟩
  · intro opt n d₁ d₂ runs
    simp only [StrategyOptimizer.optimize, Bind.bind, Except.bind]
    cases runTrialsFrom opt runs 0 n <;> simp [Except.map]
  · obtain ⟨x, xs, rfl⟩ := List.exists_cons_of_ne_nil hne
    have hng : nextGeneration population_size elite_size fit crossover mutate (x :: xs) draws =
        .error .indexError := by
      have hlen : ¬ elite_size ≤ (argsortDesc (fit x :: List.map fit xs)).length := by
        rw [argsortDesc_length]
        simp only [List.length_cons, List.length_map]
        simp only [List.length_cons] at hes
        omega
      simp [nextGeneration, eliteSelect, hlen, Bind.bind, Except.bind]
    simp only [evolveStep, npArgmax, List.map_cons, Bind.bind, Except.bind, hng]
    exact ⟨_, rfl⟩

/-- C3, witness: the amended statement applied to a population of one member
with elite_size 5. -/
theorem claim_C3_witness :
    ([(7 : ℕ)] ≠ []) ∧ ([(7 : ℕ)].length < 5) ∧
    (∃ b, evolveStep 1 5 (fun _ => (3 : ℚ)) (fun a _ => a) id none [(7 : ℕ)]
      (fun _ => ⟨false, [], [], 0, false⟩) =
      .ok (b, ([(7 : ℕ)].map (fun _ => (3 : ℚ))).sum /
        ((([(7 : ℕ)].map (fun _ => (3 : ℚ))).length : ℕ) : ℚ), .error .indexError)) :=
  ⟨by decide, by decide,
    (claim_C3_amended 1 5 (fun _ => (3 : ℚ)) (fun a _ => a) id none [(7 : ℕ)]
      (fun _ => ⟨false, [], [], 0, false⟩) (by decide) (by decide)).2.2⟩

/-- C7, counterexample: on a record whose trade_returns column is empty (a
loss sum of zero), the profit-factor metric evaluates to 0.0, not positive
infinity; the same on a record lacking the column. -/
theorem claim_C7_counterexample :
    calculate_profit_factor [("trade_returns", [])] = Fl.val 0 ∧
    calculate_profit_factor [("returns", [some 1])] = Fl.val 0 ∧
    Fl.val 0 ≠ Fl.posInf := by
  refine ⟨by decide, by decide, by decide⟩

/-- C7, amended: when the trade_returns column is present and non-empty and
its losses sum to zero, the profit factor evaluates to positive infinity
regardless of the magnitude of the gains; when the column is absent or empty
it evaluates to 0.0; in the registry the metric never raises (its computation
always returns a value). -/
theorem claim_C7_amended (df : Frame) :
    (∀ col, colOpt df "trade_returns" = some col → col ≠ [] →
      ((dropNa col).filter (fun x => x < 0)).sum = 0 →
      calculate_profit_factor df = Fl.posInf) ∧
    (colOpt df "trade_returns" = none → calculate_profit_factor df = Fl.val 0) ∧
    (colOpt df "trade_returns" = some [] → calculate_profit_factor df = Fl.val 0) ∧
    ((lookupMetric "profit_factor").map (fun m => m.calculation_function df) =
      some (.ok (calculate_profit_factor df))) := by
  refine ⟨?_, ?_, ?_, rfl⟩
  · intro col hcol hne hloss
    have hlen : ¬ (col.length = 0) := by simpa [List.length_eq_zero] using hne
    simp [calculate_profit_factor, hcol, hlen, hloss]
  · intro hcol
    simp [calculate_profit_factor, hcol]
  · intro hcol
    simp [calculate_profit_factor, hcol]

/-- C7, witness: the amended statement applied to a record with a single
large gain and no losses, and to records with an empty or absent column. -/
theorem claim_C7_witness :
    calculate_profit_factor [("trade_returns", [some 1000000])] = Fl.posInf ∧
    calculate_profit_factor [("trade_returns", [])] = Fl.val 0 :=
  ⟨(claim_C7_amended [("trade_returns", [some 1000000])]).1 [some 1000000] rfl
      (by decide) (by decide),
    (claim_C7_amended [("trade_returns", [])]).2.2.1 rfl⟩

/-- C9, counterexample: set_parameters applied to a mutation_rate of 2 — a
value outside the declared bound [0,1] — succeeds and stores the value; no
InvalidParameterError (nor any error) is raised. -/
theorem claim_C9_counterexample :
    set_parameters (GeneticStrategy.init "AAPL" 100 50 (1/10) (7/10) 5)
      [("mutation_rate", 2)] = .ok ⟨"AAPL", 100, 50, 2, 7/10, 5⟩ ∧
    ¬ mutationRateInBounds 2 := by
  refine ⟨rfl, ?_⟩
  norm_num [mutationRateInBounds]

/-- C9, amended: set_parameters validates nothing: it always succeeds,
assigning each provided value verbatim to the matching attribute (any
mutation_rate, in or out of its declared bound) and silently ignoring keys
that match no attribute. -/
theorem claim_C9_amended (s : GeneticStrategy) (parameters : List (String × ℚ)) :
    set_parameters s parameters = .ok (parameters.foldl setattrStep s) ∧
    (∀ q : ℚ, set_parameters s [("mutation_rate", q)] =
      .ok ⟨s.symbol, s.population_size, s.generations, q, s.crossover_rate, s.elite_size⟩) ∧
    (∀ (key : String) (q : ℚ),
      key ∉ ["population_size", "generations", "mutation_rate", "crossover_rate", "elite_size"] →
      set_parameters s [(key, q)] = .ok s) := by
  refine ⟨rfl, fun q => rfl, fun key q hkey => ?_⟩
  simp only [List.mem_cons, List.mem_singleton, not_or] at hkey
  obtain ⟨h1, h2, h3, h4, h5⟩ := hkey
  simp [set_parameters, setattrStep, h1, h2, h3, h4, h5]

/-- C9, witness: the amended statement applied to a concrete state and an
out-of-bounds mutation_rate of 2. -/
theorem claim_C9_witness :
    set_parameters (GeneticStrategy.init "MSFT" 100 50 (1/10) (7/10) 5)
      [("mutation_rate", 2)] = .ok ⟨"MSFT", 100, 50, 2, 7/10, 5⟩ :=
  (claim_C9_amended (GeneticStrategy.init "MSFT" 100 50 (1/10) (7/10) 5) []).2.1 2

/-- C10: on a population of fewer than 3 members every tournament fails —
`random.sample(population, 3)` raises ValueError whatever indices the
generator would produce — and consequently a generation step whose
reproduction loop takes the crossover branch aborts with that ValueError
instead of completing the generation. -/
theorem claim_C10 {Ind : Type} [Inhabited Ind] (population : List Ind) (fit : Ind → ℚ)
    (crossover : Ind → Ind → Ind) (mutate : Ind → Ind)
    (population_size elite_size : ℕ) (draws : ℕ → FillDraw)
    (hpop : population.length < 3) :
    (∀ drawA drawB, select_parents population fit drawA drawB =
      .error (.valueError "Sample larger than population or is negative")) ∧
    (elite_size ≤ population.length → elite_size < population_size →
      (draws elite_size).doCross = true →
      nextGeneration population_size elite_size fit crossover mutate population draws =
        .error (.valueError "Sample larger than population or is negative")) := by
  constructor
  · intro drawA drawB
    simp [select_parents, randomSample, hpop, Bind.bind, Except.bind]
  · intro hes hlt hcross
    have hlen : elite_size ≤ (argsortDesc (population.map fit)).length := by
      rw [argsortDesc_length]; simpa using hes
    rw [nextGeneration]
    simp only [Bind.bind, Except.bind, eliteSelect_ok _ _ _ hlen]
    have helite : (((argsortDesc (population.map fit)).take elite_size).map
        (fun i => population.getD i default)).length = elite_size := by
      simp [List.length_take]
      omega
    rw [fillLoop, helite]
    have hgas : population_size - elite_size = (population_size - elite_size - 1) + 1 := by omega
    rw [hgas]
    simp only [fillFuel, helite, hlt, if_true]
    simp [fillStep, hcross, select_parents, randomSample, hpop, Bind.bind, Except.bind]

/-- C10, witness: a population of two members with an all-crossover draw
stream aborts the generation with the ValueError from random.sample. -/
theorem claim_C10_witness :
    ([(1 : ℕ), 2].length < 3) ∧
    nextGeneration 2 0 (fun _ => (0 : ℚ)) (fun a _ => a) id [(1 : ℕ), 2]
      (fun _ => ⟨true, [0, 1, 0], [0, 0, 0], 0, false⟩) =
      .error (.valueError "Sample larger than population or is negative") :=
  ⟨by decide,
    (claim_C10 [(1 : ℕ), 2] (fun _ => (0 : ℚ)) (fun a _ => a) id 2 0
      (fun _ => ⟨true, [0, 1, 0], [0, 0, 0], 0, false⟩) (by decide)).2
      (by decide) (by decide) rfl⟩

/-- C6: a reproduction step that completes under the configuration contract
elite_size ≤ population_size produces a population of length exactly
population_size, whatever the incoming population, fitness function,
operators and random draws; applied to each generation in turn this is the
population size invariant. -/
theorem claim_C6 {Ind : Type} [Inhabited Ind] (population_size elite_size : ℕ)
    (fit : Ind → ℚ) (crossover : Ind → Ind → Ind) (mutate : Ind → Ind)
    (population : List Ind) (draws : ℕ → FillDraw) (new_population : List Ind)
    (hes : elite_size ≤ population_size)
    (h : nextGeneration population_size elite_size fit crossover mutate population draws =
      .ok new_population) :
    new_population.length = population_size := by
  rw [nextGeneration] at h
  cases helE : eliteSelect population (argsortDesc (population.map fit)) elite_size with
  | error e => rw [helE] at h; simp [Bind.bind, Except.bind] at h
  | ok elites =>
    rw [helE] at h
    simp only [Bind.bind, Except.bind] at h
    have hel : elites.length = elite_size := by
      unfold eliteSelect at helE
      split at helE
      · rename_i hle
        rw [argsortDesc_length, List.length_map] at hle
        cases helE
        simp [List.length_take, List.length_map, argsortDesc_length]
        omega
      · cases helE
    rw [fillLoop] at h
    have := fillFuel_ok_length population_size population fit crossover mutate draws
      (population_size - elites.length) elites new_population rfl h
    omega

/-- C6, witness: a complete step with population_size 2 and elite_size 1. -/
theorem claim_C6_witness : (1 ≤ 2) ∧ ([(9 : ℕ), 5].length = 2) :=
  ⟨by decide,
    claim_C6 2 1 (fun n => (n : ℚ)) (fun a _ => a) id [(5 : ℕ), 9]
      (fun _ => ⟨false, [], [], 0, false⟩) [9, 5] (by decide) (by decide)⟩

/-- C1, counterexample: on a record holding the returns column but not the
trade_returns column, requesting [win_rate, max_drawdown] does not produce an
error listing the missing column names — the loop crashes first with
AttributeError (it reads metric.requires, but the dataclass field is
requires_columns) — and even under the intended field names the
missing-column ValueError aborts the whole call, so max_drawdown (whose
required column is present) is not computed either. -/
theorem claim_C1_counterexample :
    calculate_metrics (some dfMetrics) [] (some ["win_rate", "max_drawdown"]) =
      .error (.attributeError "requires") ∧
    PyErr.attributeError "requires" ≠ PyErr.missingColumnsError "win_rate" ["trade_returns"] ∧
    calculate_metrics_fixed (some dfMetrics) [] (some ["win_rate", "max_drawdown"]) =
      .error (.missingColumnsError "win_rate" ["trade_returns"]) := by
  refine ⟨by decide, by decide, by decide⟩

/-- C1, amended: as written, calculate_metrics reaches any registered metric
and raises AttributeError (the loop reads metric.requires and
metric.function, but the Metric dataclass declares requires_columns and
calculation_function), whatever columns the record has; under the intended
field names the loop raises a ValueError listing exactly the missing column
names of the first requested metric with missing columns, and that error
aborts the call, so none of the remaining requested metrics is computed. -/
theorem claim_C1_amended (df df2 : Frame)
    (performance_metrics : List (String × Option Fl)) (metric_name : String)
    (m : Metric) (rest : List String)
    (hpre : preprocessData (some df) = .ok df2)
    (hm : lookupMetric metric_name = some m) :
    calculate_metrics (some df) performance_metrics (some (metric_name :: rest)) =
      .error (.attributeError "requires") ∧
    (m.requires_columns.filter (fun c => ¬ hasCol df2 c) ≠ [] →
      calculate_metrics_fixed (some df) performance_metrics (some (metric_name :: rest)) =
        .error (.missingColumnsError metric_name
          (m.requires_columns.filter (fun c => ¬ hasCol df2 c)))) := by
  constructor
  · simp [calculate_metrics, hpre, Bind.bind, Except.bind, metricsLoop, hm]
  · intro hmiss
    simp only [calculate_metrics_fixed, Bind.bind, Except.bind, hpre, Option.getD_some,
      metricsLoopFixed, hm]
    rw [if_pos hmiss]

/-- C1, witness: the amended statement applied to the concrete record and the
request [win_rate, max_drawdown]. -/
theorem claim_C1_witness :
    (["trade_returns"].filter (fun c => ¬ hasCol dfMetrics c) = ["trade_returns"]) ∧
    calculate_metrics (some dfMetrics) [] (some ["win_rate", "max_drawdown"]) =
      .error (.attributeError "requires") ∧
    calculate_metrics_fixed (some dfMetrics) [] (some ["win_rate", "max_drawdown"]) =
      .error (.missingColumnsError "win_rate"
        ((["trade_returns"] : List String).filter (fun c => ¬ hasCol dfMetrics c))) := by
  have h := claim_C1_amended dfMetrics dfMetrics [] "win_rate"
    ⟨"Win Rate", "Percentage of winning trades", MetricCategory.TRADES, some true,
      ["trade_returns"], fun df => .ok (calculate_win_rate df)⟩
    ["max_drawdown"] (by decide) rfl
  exact ⟨by decide, h.1, h.2 (by decide)⟩

/-- C4, counterexample: on a population of 3 individuals with fitness 1, 2, 3
the tournaments the code can draw are exactly the 6 orderings of the 3
distinct indices — random.sample draws without replacement — and every one of
them selects the fittest individual (fitness 3); under the sampling the claim
describes (3 draws WITH replacement) the draw (0,0,0) is possible and
selects the least fit individual (fitness 1), an outcome the code can never
produce, so the claim misdescribes the sampling distribution. -/
theorem claim_C4_counterexample :
    selectOneParent [(1 : ℚ), 2, 3] id [0, 1, 2] = .ok 3 ∧
    selectOneParent [(1 : ℚ), 2, 3] id [0, 2, 1] = .ok 3 ∧
    selectOneParent [(1 : ℚ), 2, 3] id [1, 0, 2] = .ok 3 ∧
    selectOneParent [(1 : ℚ), 2, 3] id [1, 2, 0] = .ok 3 ∧
    selectOneParent [(1 : ℚ), 2, 3] id [2, 0, 1] = .ok 3 ∧
    selectOneParent [(1 : ℚ), 2, 3] id [2, 1, 0] = .ok 3 ∧
    tournamentWinnerWR [(1 : ℚ), 2, 3] id 0 0 0 = .ok 1 ∧
    (1 : ℚ) ≠ 3 := by
  refine ⟨by decide, by decide, by decide, by decide, by decide, by decide, by decide, by decide⟩

/-- C4, amended: each parent is chosen by a tournament that samples 3
individuals uniformly at random WITHOUT replacement (random.sample draws 3
distinct indices) and returns the sampled individual with the highest fitness
(the first such, on ties); the two parent slots consume independent draws, as
witnessed by the factorization of select_parents into one selectOneParent per
slot. -/
theorem claim_C4_amended {Ind : Type} [Inhabited Ind] (population : List Ind)
    (fit : Ind → ℚ) (drawA drawB : List ℕ)
    (hA3 : drawA.length = 3) (hAnd : drawA.Nodup)
    (hAmem : ∀ i ∈ drawA, i < population.length)
    (hB3 : drawB.length = 3) (_hBnd : drawB.Nodup)
    (_hBmem : ∀ i ∈ drawB, i < population.length) :
    ∃ wA wB,
      select_parents population fit drawA drawB = .ok [wA, wB] ∧
      selectOneParent population fit drawA = .ok wA ∧
      selectOneParent population fit drawB = .ok wB ∧
      wA ∈ drawA.map (fun i => population.getD i default) ∧
      (∀ x ∈ drawA.map (fun i => population.getD i default), fit x ≤ fit wA) ∧
      wB ∈ drawB.map (fun i => population.getD i default) ∧
      (∀ x ∈ drawB.map (fun i => population.getD i default), fit x ≤ fit wB) := by
  have hpop : 3 ≤ population.length := nodup_draw_le_length population drawA hA3 hAnd hAmem
  have hnlt : ¬ (population.length < 3) := Nat.not_lt.mpr hpop
  have hsampleA : randomSample population 3 drawA =
      .ok (drawA.map (fun i => population.getD i default)) := by
    simp [randomSample, hnlt]
  have hsampleB : randomSample population 3 drawB =
      .ok (drawB.map (fun i => population.getD i default)) := by
    simp [randomSample, hnlt]
  obtain ⟨a0, arest, hAeq⟩ : ∃ a0 arest,
      drawA.map (fun i => population.getD i default) = a0 :: arest := by
    cases hd : drawA.map (fun i => population.getD i default) with
    | nil => exfalso; have := congrArg List.length hd; simp [hA3] at this
    | cons a0 arest => exact ⟨a0, arest, rfl⟩
  obtain ⟨b0, brest, hBeq⟩ : ∃ b0 brest,
      drawB.map (fun i => population.getD i default) = b0 :: brest := by
    cases hd : drawB.map (fun i => population.getD i default) with
    | nil => exfalso; have := congrArg List.length hd; simp [hB3] at this
    | cons b0 brest => exact ⟨b0, brest, rfl⟩
  obtain ⟨wA, hwA, hwAmem, hwAle⟩ := pyMax_spec fit a0 arest
  obtain ⟨wB, hwB, hwBmem, hwBle⟩ := pyMax_spec fit b0 brest
  have hAeqN := hAeq
  have hBeqN := hBeq
  simp only [List.getD_eq_getElem?_getD] at hAeqN hBeqN
  refine ⟨wA, wB, ?_, ?_, ?_, ?_, ?_, ?_, ?_⟩
  · simp [select_parents, hsampleA, hsampleB, hAeqN, hBeqN, hwA, hwB, Bind.bind, Except.bind]
  · simp [selectOneParent, hsampleA, hAeqN, hwA, Bind.bind, Except.bind]
  · simp [selectOneParent, hsampleB, hBeqN, hwB, Bind.bind, Except.bind]
  · rw [hAeq]; exact hwAmem
  · rw [hAeq]; exact hwAle
  · rw [hBeq]; exact hwBmem
  · rw [hBeq]; exact hwBle

/-- C4, witness: the amended statement applied to the population of fitness
1, 2, 3 with the concrete draws [0,1,2] and [2,1,0]. -/
theorem claim_C4_witness :
    ∃ wA wB,
      select_parents [(1 : ℚ), 2, 3] id [0, 1, 2] [2, 1, 0] = .ok [wA, wB] ∧
      selectOneParent [(1 : ℚ), 2, 3] id [0, 1, 2] = .ok wA ∧
      selectOneParent [(1 : ℚ), 2, 3] id [2, 1, 0] = .ok wB ∧
      wA ∈ [0, 1, 2].map (fun i => ([(1 : ℚ), 2, 3]).getD i default) ∧
      (∀ x ∈ [0, 1, 2].map (fun i => ([(1 : ℚ), 2, 3]).getD i default), id x ≤ id wA) ∧
      wB ∈ [2, 1, 0].map (fun i => ([(1 : ℚ), 2, 3]).getD i default) ∧
      (∀ x ∈ [2, 1, 0].map (fun i => ([(1 : ℚ), 2, 3]).getD i default), id x ≤ id wB) :=
  claim_C4_amended [(1 : ℚ), 2, 3] id [0, 1, 2] [2, 1, 0]
    (by decide) (by decide) (by decide) (by decide) (by decide) (by decide)

/-- C8: on a NaN-free returns column whose cumulative value series avoids 0,
max_drawdown equals the absolute value of the most negative entry of the
drawdown series (value - running peak) / running peak computed over an
expanding window; on a record whose cumulative value series is monotonically
increasing it returns 0, and on the series that halves from its peak
(returns [1, -1/2], cumulative values [2, 1]) it returns 0.5. -/
theorem claim_C8 (df : Frame) (rs : List ℚ)
    (hcol : colOpt df "returns" = some (rs.map some)) :
    (rs ≠ [] → (∀ x ∈ cumprodQ rs, x ≠ 0) →
      calculate_max_drawdown df = .ok (Fl.val |minQ (specDrawdowns (cumprodQ rs))|)) ∧
    (rs ≠ [] → (∀ x ∈ cumprodQ rs, x ≠ 0) → List.Chain' (· ≤ ·) (cumprodQ rs) →
      calculate_max_drawdown df = .ok (Fl.val 0)) ∧
    calculate_max_drawdown [("returns", [some 1, some (-(1 : ℚ) / 2)])] =
      .ok (Fl.val (1 / 2)) := by
  refine ⟨fun hne hnz => max_drawdown_formula df rs hcol hne hnz,
    fun hne hnz hchain => ?_, ?_⟩
  · rw [max_drawdown_formula df rs hcol hne hnz]
    have hdd : specDrawdowns (cumprodQ rs) = (cumprodQ rs).map (fun c => (c - c) / c) := by
      rw [specDrawdowns, expandingMaxQ_of_chain _ hchain, List.zipWith_same]
    have hzero : ∀ y ∈ specDrawdowns (cumprodQ rs), y = 0 := by
      rw [hdd]
      intro y hy
      obtain ⟨c, _, rfl⟩ := List.mem_map.mp hy
      simp
    have hddne : specDrawdowns (cumprodQ rs) ≠ [] := by
      intro hc
      have := congrArg List.length hc
      rw [specDrawdowns_length, cumprodQ, cumprodQGo_length] at this
      simp [List.length_eq_zero] at this
      exact hne this
    rw [minQ_of_all_zero _ hddne hzero]
    norm_num
  · norm_num [calculate_max_drawdown, getCol, colOpt, cumprod1p, cumprodGo, expandingMax,
      expMaxGo, seriesMin, dropNa, ddCell, Bind.bind, Except.bind, Pure.pure, Except.pure,
      List.filterMap, abs]

/-- C8, witness: a monotonically increasing cumulative series (returns
[1, 1], cumulative values [2, 4]) yields drawdown 0, and the halving series
yields 0.5. -/
theorem claim_C8_witness :
    calculate_max_drawdown [("returns", [some (1 : ℚ), some 1])] = .ok (Fl.val 0) ∧
    calculate_max_drawdown [("returns", [some 1, some (-(1 : ℚ) / 2)])] =
      .ok (Fl.val (1 / 2)) := by
  have h := claim_C8 [("returns", [some (1 : ℚ), some 1])] [1, 1] rfl
  have hcum : cumprodQ [(1 : ℚ), 1] = [2, 4] := by norm_num [cumprodQ, cumprodQGo]
  refine ⟨h.2.1 (by decide) ?_ ?_, h.2.2⟩
  · rw [hcum]
    intro x hx
    rcases List.mem_cons.mp hx with rfl | hx
    · norm_num
    · rcases List.mem_cons.mp hx with rfl | hx
      · norm_num
      · simp at hx
  · rw [hcum]
    exact List.chain'_cons.mpr ⟨by norm_num, List.chain'_singleton _⟩

/-- C5, counterexample: with two equal-fitness individuals and
elite_size = population_size = 2 the next generation is the two elites in
REVERSE original order — the code reverses an ascending argsort, so equal
scores come out backwards — while the stable descending order the claim
describes (ties keep original population order) would give them in original
order. -/
theorem claim_C5_counterexample :
    nextGeneration 2 2 (fun _ => (0 : ℚ)) (fun a _ => a) id [(10 : ℕ), 20]
      (fun _ => ⟨false, [], [], 0, false⟩) = .ok [20, 10] ∧
    specEliteStable [(10 : ℕ), 20] (fun _ => (0 : ℚ)) 2 = [10, 20] ∧
    [(20 : ℕ), 10] ≠ [10, 20] := by
  refine ⟨by decide, by decide, by decide⟩

/-- C5, amended: a completed reproduction step copies, unmodified, the
members at the first elite_size positions of the reversed ascending argsort
of the fitness scores into the head of generation g+1: these positions are
distinct valid indices of generation g, they are ordered by the reversed
argsort order (descending fitness, with equal-fitness individuals in reverse
original population order — not the original order a stable descending sort
would keep), and each copied member has fitness at least that of every
member left behind. -/
theorem claim_C5_amended {Ind : Type} [Inhabited Ind] (population_size elite_size : ℕ)
    (fit : Ind → ℚ) (crossover : Ind → Ind → Ind) (mutate : Ind → Ind)
    (population : List Ind) (draws : ℕ → FillDraw) (new_population : List Ind)
    (hes : elite_size ≤ population.length)
    (h : nextGeneration population_size elite_size fit crossover mutate population draws =
      .ok new_population) :
    new_population.take elite_size =
      ((argsortDesc (population.map fit)).take elite_size).map
        (fun i => population.getD i default) ∧
    ((argsortDesc (population.map fit)).take elite_size).Nodup ∧
    (∀ i ∈ (argsortDesc (population.map fit)).take elite_size, i < population.length) ∧
    List.Pairwise (fun i j => idxLe (population.map fit) j i)
      ((argsortDesc (population.map fit)).take elite_size) ∧
    (∀ i ∈ (argsortDesc (population.map fit)).take elite_size,
      ∀ j ∈ (argsortDesc (population.map fit)).drop elite_size,
        (population.map fit).getD j 0 ≤ (population.map fit).getD i 0) := by
  have hlen : elite_size ≤ (argsortDesc (population.map fit)).length := by
    rw [argsortDesc_length, List.length_map]; exact hes
  rw [nextGeneration, eliteSelect_ok _ _ _ hlen] at h
  simp only [Bind.bind, Except.bind] at h
  rw [fillLoop] at h
  obtain ⟨ext, hext⟩ := fillFuel_ok_append _ _ _ _ _ _ _ _ _ h
  have hel : (((argsortDesc (population.map fit)).take elite_size).map
      (fun i => population.getD i default)).length = elite_size := by
    simp only [List.length_map, List.length_take]
    omega
  have hpw : List.Pairwise (fun i j => idxLe (population.map fit) j i)
      (argsortDesc (population.map fit)) := argsortDesc_pairwise _
  refine ⟨?_, ?_, ?_, ?_, ?_⟩
  · rw [hext]; exact List.take_left' hel
  · exact (argsortDesc_nodup _).sublist (List.take_sublist _ _)
  · intro i hi
    have hmem : i ∈ argsortDesc (population.map fit) := List.take_subset _ _ hi
    have := argsortDesc_mem _ _ hmem
    rwa [List.length_map] at this
  · exact hpw.sublist (List.take_sublist _ _)
  · intro i hi j hj
    have hcross : idxLe (population.map fit) j i := by
      have hsplit := hpw
      rw [← List.take_append_drop elite_size (argsortDesc (population.map fit))] at hsplit
      exact (List.pairwise_append.mp hsplit).2.2 i hi j hj
    rcases hcross with hlt | ⟨heq, _⟩
    · exact le_of_lt hlt
    · exact le_of_eq heq

/-- C5, witness: the amended statement applied to the population [10, 20]
with identity fitness and elite_size 1 (the fitter member, 20, is copied to
the head of the next generation). -/
theorem claim_C5_witness :
    (1 ≤ [(10 : ℚ), 20].length) ∧
    ([(20 : ℚ), 10].take 1 =
      ((argsortDesc ([(10 : ℚ), 20].map id)).take 1).map
        (fun i => [(10 : ℚ), 20].getD i default) ∧
    ((argsortDesc ([(10 : ℚ), 20].map id)).take 1).Nodup ∧
    (∀ i ∈ (argsortDesc ([(10 : ℚ), 20].map id)).take 1, i < [(10 : ℚ), 20].length) ∧
    List.Pairwise (fun i j => idxLe ([(10 : ℚ), 20].map id) j i)
      ((argsortDesc ([(10 : ℚ), 20].map id)).take 1) ∧
    (∀ i ∈ (argsortDesc ([(10 : ℚ), 20].map id)).take 1,
      ∀ j ∈ (argsortDesc ([(10 : ℚ), 20].map id)).drop 1,
        ([(10 : ℚ), 20].map id).getD j 0 ≤ ([(10 : ℚ), 20].map id).getD i 0)) :=
  ⟨by decide,
    claim_C5_amended 2 1 id (fun a _ => a) id [(10 : ℚ), 20]
      (fun _ => ⟨false, [], [], 0, false⟩) [20, 10] (by decide) (by decide)⟩

end StockAnalysis
